import Mathlib

/-!
# Verification of the moh_player download pipeline

Shallow embedding of the two sketch variants of the Music-On-Hold device
firmware:

* `src/src/moh.cpp` — the "Robust Download Implementation" variant, whose
  `downloadAudioFile` reads chunks with `modem.https_body`, scans each chunk
  for AT-response contamination (leading, trailing and interior), and writes
  the clean slice to SD.
* `src/unnamed/part_000` — the "Final PSRAM Version" variant, whose
  `downloadAudioFile` drives raw `+HTTPREAD` commands, stages bytes in a
  fixed 2 MiB PSRAM arena and flushes the arena to SD when it is full or the
  transfer is complete.

Bytes are modelled as natural numbers (13 = CR, 10 = LF, 43 = '+', 65 = 'A',
72/84/84/80 = "HTTP").  The modem, the SD card and the serial stream are
modelled as oracles: a list of chunk events for the download loops, boolean
streams for `testAT`, and status enumerations for SIM / registration polling.
-/

/-- Byte test used throughout `moh.cpp`'s scans:
`buffer[i] == '\r' || buffer[i] == '\n'`. -/
def isCRLF (b : Nat) : Bool := b == 13 || b == 10

/-- `CHUNK_SIZE` of `moh.cpp` (line 434). -/
def CHUNK_SIZE : Nat := 1024

/-- Leading-edge scan of `moh.cpp` (lines 459-474): the first index `i` with
`i < bytesRead - 10 && i < 100` such that `buffer[i]` is CR/LF and
`buffer[i+1] == '+'`. -/
def mohLeadIdx (d : List Nat) : Option Nat :=
  (List.range (min (d.length - 10) 100)).find?
    (fun i => isCRLF (d.getD i 0) && d.getD (i + 1) 0 == 43)

/-- `cleanStart` as computed by `moh.cpp` lines 455-474: if the leading scan
fires at `i`, scan forward from `j = i` (while `j < bytesRead - 1`) for the
first newline and set `cleanStart = j + 1`; if no newline is found before
`bytesRead - 1`, `cleanStart` keeps its initial value 0. -/
def mohCleanStart (d : List Nat) : Nat :=
  match mohLeadIdx d with
  | none => 0
  | some i =>
    match (List.range' i (d.length - 1 - i)).find? (fun j => d.getD j 0 == 10) with
    | none => 0
    | some j => j + 1

/-- Trailing-edge scan of `moh.cpp` (lines 477-491): the first index `i`
going down from `bytesRead - 1` while `i > bytesRead - 50 && i > 0`, such that
`buffer[i] == '+'` and `buffer[i-1]` is CR/LF. -/
def mohTailIdx (d : List Nat) : Option Nat :=
  ((List.range' (max (d.length - 49) 1) (d.length - max (d.length - 49) 1)).reverse).find?
    (fun i => d.getD i 0 == 43 && isCRLF (d.getD (i - 1) 0))

/-- The `while (cleanEnd > 0 && (buffer[cleanEnd]=='\r'||'\n')) cleanEnd--;`
loop of `moh.cpp` lines 482-484, starting at position `e`. -/
def mohSkipCRLFBack (d : List Nat) : Nat → Nat
  | 0 => 0
  | e + 1 => if isCRLF (d.getD (e + 1) 0) then mohSkipCRLFBack d e else e + 1

/-- `cleanEnd` as computed by `moh.cpp` lines 456-491: `bytesRead` when the
trailing scan finds nothing, otherwise `i - 1` backed up over CR/LF bytes and
then incremented once ("include last valid byte"). -/
def mohCleanEnd (d : List Nat) : Nat :=
  match mohTailIdx d with
  | none => d.length
  | some i => mohSkipCRLFBack d (i - 1) + 1

/-- The 6-byte interior contamination pattern of `moh.cpp` lines 495-500:
CR/LF at `i` followed by `"+HTTP"`. -/
def mohContamAt (d : List Nat) (i : Nat) : Bool :=
  isCRLF (d.getD i 0) && d.getD (i + 1) 0 == 43 && d.getD (i + 2) 0 == 72 &&
    d.getD (i + 3) 0 == 84 && d.getD (i + 4) 0 == 84 && d.getD (i + 5) 0 == 80

/-- Interior scan of `moh.cpp` lines 494-507:
`for (int i = cleanStart + 10; i < cleanEnd - 10; i++)`. -/
def mohInterior (d : List Nat) (s e : Nat) : Bool :=
  (List.range' (s + 10) (e - 10 - (s + 10))).any (fun i => mohContamAt d i)

/-- Outcome of processing one chunk in `moh.cpp`: `ok = false` aborts the
transfer, `ok = true` keeps the slice `[s, e)`. -/
structure ChunkOut where
  ok : Bool
  s : Nat
  e : Nat
deriving DecidableEq

/-- The per-chunk contamination handling of `moh.cpp` lines 453-525: compute
`cleanStart` and `cleanEnd`, fail on interior contamination, fail when
`cleanLength <= 0` ("Entire chunk contaminated!"), otherwise keep the clean
slice. -/
def mohProcess (d : List Nat) : ChunkOut :=
  let s := mohCleanStart d
  let e := mohCleanEnd d
  if mohInterior d s e then ⟨false, s, e⟩
  else if s < e then ⟨true, s, e⟩ else ⟨false, s, e⟩

/-- One `modem.https_body` read event of `moh.cpp`: the bytes delivered
(`[]` models `bytesRead <= 0`) and whether the subsequent `file.write` of the
clean slice returns the full length. -/
structure MohChunk where
  data : List Nat
  sdOk : Bool
deriving DecidableEq

/-- Result of the `moh.cpp` download loop: the returned boolean, the final
`totalRead`, the slices written to SD, and the number of `https_body` calls. -/
structure MohRun where
  success : Bool
  total : Nat
  writes : List (List Nat)
  reads : Nat
deriving DecidableEq

/-- The chunk loop of `moh.cpp` lines 441-536 plus the unconditional
`return true` of lines 538-564.  `return false` happens on read failure,
interior contamination, an all-contaminated chunk, or a short SD write; the
loop `break`s when `bytesRead < CHUNK_SIZE` and the function then returns
`true` (printing only a WARNING when `totalRead < totalSize`).  An exhausted
event list models a read that fails (`bytesRead <= 0`). -/
def mohLoop (ts : Nat) : List MohChunk → Nat → MohRun
  | [], tr =>
    if tr < ts then ⟨false, tr, [], 1⟩ else ⟨true, tr, [], 0⟩
  | ch :: rest, tr =>
    if tr < ts then
      if ch.data.length = 0 then ⟨false, tr, [], 1⟩
      else
        let p := mohProcess ch.data
        if p.ok then
          if ch.sdOk then
            let slice := (ch.data.drop p.s).take (p.e - p.s)
            let tr' := tr + (p.e - p.s)
            if ch.data.length < CHUNK_SIZE then ⟨true, tr', [slice], 1⟩
            else
              let r := mohLoop ts rest tr'
              ⟨r.success, r.total, slice :: r.writes, r.reads + 1⟩
          else ⟨false, tr, [], 1⟩
        else ⟨false, tr, [], 1⟩
    else ⟨true, tr, [], 0⟩

/-- Environment for `moh.cpp`'s `downloadAudioFile`: results of
`https_begin`, `https_set_url`, the HTTP status and declared size returned by
`https_get`, whether the old file exists, whether `SD.open` succeeds, and the
chunk events. -/
structure MohEnv where
  beginOk : Bool
  setUrlOk : Bool
  httpCode : Int
  totalSize : Nat
  oldExists : Bool
  fileOpenOk : Bool
  chunks : List MohChunk
deriving DecidableEq

/-- Result of `moh.cpp`'s `downloadAudioFile` together with its observable
SD effects. -/
structure MohDl where
  success : Bool
  total : Nat
  removed : Bool
  writes : List (List Nat)
  reads : Nat
deriving DecidableEq

/-- `downloadAudioFile` of `moh.cpp` lines 382-565: HTTP session init, URL,
GET (only `httpCode != 200` is rejected — the declared size is not checked),
deletion of the old file, file open, then the chunk loop. -/
def downloadAudioFileMoh (env : MohEnv) : MohDl :=
  if !env.beginOk then ⟨false, 0, false, [], 0⟩
  else if !env.setUrlOk then ⟨false, 0, false, [], 0⟩
  else if env.httpCode != 200 then ⟨false, 0, false, [], 0⟩
  else
    let removed := env.oldExists
    if !env.fileOpenOk then ⟨false, 0, removed, [], 0⟩
    else
      let r := mohLoop env.totalSize env.chunks 0
      ⟨r.success, r.total, removed, r.writes, r.reads⟩

/-- `LARGE_BUFFER_SIZE` of `part_000` (line 20): the 2 MiB PSRAM staging
arena capacity. -/
def LARGE_BUFFER_SIZE : Nat := 2048 * 1024

/-- `MODEM_READ_SIZE` of `part_000` (line 23). -/
def MODEM_READ_SIZE : Nat := 1024

/-- One `+HTTPREAD` round of `part_000`: the chunk length declared by the
modem's `+HTTPREAD:` header (`0` models the 5-second header timeout, after
which the loop breaks), whether `SerialAT.readBytes` returns fewer bytes than
declared ("Stream mismatch!"), and whether the SD flush write, if one happens
this round, returns the full staged length. -/
structure P0Chunk where
  len : Nat
  short : Bool
  sdOk : Bool
deriving DecidableEq

/-- Result of the `part_000` download loop: the returned boolean
(`totalDownloaded == contentLength`), final `totalDownloaded`, the trace of
`totalDownloaded` values after each accepted chunk, the arena write spans
`(bufferOffset, len)` passed to `readBytes(psramBuf + bufferOffset, len)`,
the sizes handed to `file.write` at each flush, the final `bufferOffset`,
and the number of `+HTTPREAD` rounds. -/
structure P0Run where
  success : Bool
  total : Nat
  tds : List Nat
  writes : List (Nat × Nat)
  flushes : List Nat
  finalOff : Nat
  reads : Nat
deriving DecidableEq

/-- The download loop of `part_000` lines 219-281: request a chunk, read the
declared number of bytes into the arena at `bufferOffset` (no bounds check),
advance `bufferOffset` and `totalDownloaded` by the declared length, flush
when `bufferOffset >= LARGE_BUFFER_SIZE || totalDownloaded == contentLength`,
and finally `return (totalDownloaded == contentLength)`.  All `break` paths
fall through to that same final comparison. -/
def p0Loop (cl : Nat) : List P0Chunk → Nat → Nat → P0Run
  | [], td, off => ⟨td == cl, td, [], [], [], off, 0⟩
  | ch :: rest, td, off =>
    if td < cl then
      if ch.len = 0 then ⟨td == cl, td, [], [], [], off, 1⟩
      else if ch.short then ⟨td == cl, td, [], [(off, ch.len)], [], off, 1⟩
      else
        let td' := td + ch.len
        let off' := off + ch.len
        if LARGE_BUFFER_SIZE ≤ off' || td' == cl then
          if ch.sdOk then
            let r := p0Loop cl rest td' 0
            ⟨r.success, r.total, td' :: r.tds, (off, ch.len) :: r.writes,
              off' :: r.flushes, r.finalOff, r.reads + 1⟩
          else ⟨td' == cl, td', [td'], [(off, ch.len)], [off'], off', 1⟩
        else
          let r := p0Loop cl rest td' off'
          ⟨r.success, r.total, td' :: r.tds, (off, ch.len) :: r.writes,
            r.flushes, r.finalOff, r.reads + 1⟩
    else ⟨td == cl, td, [], [], [], off, 0⟩

/-- Environment for `part_000`'s `downloadAudioFile`: results of `+HTTPINIT`,
`+HTTPPARA="URL"`, `+HTTPACTION=0` (initial OK), the wait for the
`+HTTPACTION:` header, the parsed status and content length, whether the old
file exists, whether `SD.open` succeeds, and the chunk rounds.  (The
`USERDATA` header result only prints a warning and is not modelled.) -/
structure P0Env where
  initOk : Bool
  urlOk : Bool
  actionOk : Bool
  hdrOk : Bool
  status : Int
  contentLength : Int
  oldExists : Bool
  fileOpenOk : Bool
  chunks : List P0Chunk
deriving DecidableEq

/-- Result of `part_000`'s `downloadAudioFile` with its observable SD
effects. -/
structure P0Dl where
  success : Bool
  total : Nat
  removed : Bool
  flushes : List Nat
  reads : Nat
deriving DecidableEq

/-- `downloadAudioFile` of `part_000` lines 165-281: session init, URL,
GET, header parse; `status != 200 || contentLength <= 0` is rejected before
any SD operation; then old-file removal, file open, and the chunk loop. -/
def downloadAudioFileP0 (env : P0Env) : P0Dl :=
  if !env.initOk then ⟨false, 0, false, [], 0⟩
  else if !env.urlOk then ⟨false, 0, false, [], 0⟩
  else if !env.actionOk then ⟨false, 0, false, [], 0⟩
  else if !env.hdrOk then ⟨false, 0, false, [], 0⟩
  else if env.status != 200 || env.contentLength ≤ 0 then ⟨false, 0, false, [], 0⟩
  else
    let removed := env.oldExists
    if !env.fileOpenOk then ⟨false, 0, removed, [], 0⟩
    else
      let r := p0Loop env.contentLength.toNat env.chunks 0 0
      ⟨r.success, r.total, removed, r.flushes, r.reads⟩

/-- A bounded `testAT` probe loop: `t` is the stream of `modem.testAT`
results (indexed by call number), `k` the index of the next call, `fuel` the
number of calls allowed.  Returns the index after the first successful call,
or `none` when all `fuel` calls fail. -/
def probeAT (t : Nat → Bool) : Nat → Nat → Option Nat
  | _, 0 => none
  | k, fuel + 1 => if t k then some (k + 1) else probeAT t (k + 1) fuel

/-- Probe phases of `moh.cpp`'s `powerOnModem` lines 158-237, up to a ready
modem.  The already-on check makes up to 10 probes; if the modem was on, the
soft-reset wait loop tolerates failures while `retry++ > 20` is false
(22 probes); otherwise the power-pulse wait loop allows 5 probes
(`retry++ > 3`), and after a hard reset 12 probes (`retry++ > 10`). -/
def mohReadyPhase (t : Nat → Bool) : Option Nat :=
  match probeAT t 0 10 with
  | some k => probeAT t k 22
  | none =>
    match probeAT t 10 5 with
    | some k => some k
    | none => probeAT t 15 12

/-- `powerOnModem` of `moh.cpp` lines 144-269.  After the ready phase, the
`+IPR=921600` command is issued: a missing OK is `return false`.  Then the
serial side switches and up to 7 verification probes run (`retry++ > 5`); if
they all fail the function falls back to 115200 baud and returns `true`
("Continue at lower speed rather than fail").  Result: (returned boolean,
final local baud rate). -/
def powerOnModemMoh (t : Nat → Bool) (iprOk : Bool) : Bool × Nat :=
  match mohReadyPhase t with
  | none => (false, 115200)
  | some k =>
    if iprOk then
      match probeAT t k 7 with
      | some _ => (true, 921600)
      | none => (true, 115200)
    else (false, 115200)

/-- Probe phases of `part_000`'s `powerOnModem` lines 284-313: up to 10
already-on probes, then either path tolerates failures while
`retry++ > 20` is false (22 probes). -/
def p0ReadyPhase (t : Nat → Bool) : Option Nat :=
  match probeAT t 0 10 with
  | some k => probeAT t k 22
  | none => probeAT t 10 22

/-- `powerOnModem` of `part_000` lines 284-321: after the ready phase,
`+IPR=921600` without an OK is `return false`; on OK the serial side switches
and the function returns `true` with no verification probe and no fallback. -/
def powerOnModemP0 (t : Nat → Bool) (iprOk : Bool) : Bool × Nat :=
  match p0ReadyPhase t with
  | none => (false, 115200)
  | some _ => if iprOk then (true, 921600) else (false, 115200)

/-- `SimStatus` values distinguished by `connectNetwork` in `moh.cpp`
lines 274-293 (`SIM_READY`, `SIM_LOCKED`, anything else). -/
inductive SimSt where
  | ready : SimSt
  | locked : SimSt
  | other : SimSt
deriving DecidableEq

/-- `RegStatus` values distinguished by `connectNetwork` in `moh.cpp`
lines 296-315 (`REG_OK_HOME`, `REG_OK_ROAMING`, `REG_DENIED`, anything
else). -/
inductive RegSt where
  | home : RegSt
  | roaming : RegSt
  | denied : RegSt
  | other : RegSt
deriving DecidableEq

/-- Outcome of the SIM poll loop. -/
inductive SimOut where
  | ok : SimOut
  | lockedOut : SimOut
  | timeout : SimOut
deriving DecidableEq

/-- SIM wait loop of `moh.cpp` lines 275-293: up to 30 `getSimStatus` polls;
`SIM_LOCKED` returns immediately, `SIM_READY` exits the loop, anything else
retries; exhausting the budget is a timeout.  Also returns the index after
the last poll made. -/
def simLoop (f : Nat → SimSt) : Nat → Nat → SimOut × Nat
  | k, 0 => (.timeout, k)
  | k, fuel + 1 =>
    match f k with
    | .ready => (.ok, k + 1)
    | .locked => (.lockedOut, k + 1)
    | .other => simLoop f (k + 1) fuel

/-- Outcome of the registration poll loop. -/
inductive RegOut where
  | ok : RegOut
  | deniedOut : RegOut
  | timeout : RegOut
deriving DecidableEq

/-- Registration wait loop of `moh.cpp` lines 296-315: up to 60
`getRegistrationStatus` polls; `REG_OK_HOME` or `REG_OK_ROAMING` break with
success, `REG_DENIED` returns immediately, anything else retries. -/
def regLoop (g : Nat → RegSt) : Nat → Nat → RegOut × Nat
  | k, 0 => (.timeout, k)
  | k, fuel + 1 =>
    match g k with
    | .home => (.ok, k + 1)
    | .roaming => (.ok, k + 1)
    | .denied => (.deniedOut, k + 1)
    | .other => regLoop g (k + 1) fuel

/-- Network-open retry loop of `moh.cpp` lines 322-337: up to 3
`setNetworkActive` attempts. -/
def netOpenLoop (h : Nat → Bool) : Nat → Nat → Bool
  | _, 0 => false
  | k, fuel + 1 => if h k then true else netOpenLoop h (k + 1) fuel

/-- `connectNetwork` of `moh.cpp` lines 271-350: SIM poll (budget 30),
registration poll (budget 60), a `+NETCLOSE` whose response is ignored,
bearer activation (3 attempts), and IP verification (empty or `"0.0.0.0"`
fails despite the activation reporting success). -/
def connectNetworkMoh (f : Nat → SimSt) (g : Nat → RegSt) (h : Nat → Bool)
    (ip : String) : Bool :=
  match simLoop f 0 30 with
  | (.ok, _) =>
    match regLoop g 0 60 with
    | (.ok, _) =>
      if netOpenLoop h 0 3 then
        if ip.length == 0 || ip == "0.0.0.0" then false else true
      else false
    | _ => false
  | _ => false

/-- Observable operations of one refresh cycle (`checkForNewAudio`). -/
inductive CycleEv where
  | stopSong : CycleEv
  | powerOn : CycleEv
  | connect : CycleEv
  | alloc : CycleEv
  | download : CycleEv
  | freeBuf : CycleEv
  | disconnect : CycleEv
  | shutdown : CycleEv
  | playOld : CycleEv
  | playNew : CycleEv
deriving DecidableEq

/-- `checkForNewAudio` of `moh.cpp` lines 108-142 as an operation trace,
driven by the outcomes of `powerOnModem`, `connectNetwork` and
`downloadAudioFile` and by the `fileReady` flag (`wasPlaying`). -/
def checkForNewAudioMoh (pOk cOk dOk wasPlaying : Bool) : List CycleEv :=
  if !pOk then [.powerOn, .shutdown]
  else if !cOk then [.powerOn, .connect, .shutdown]
  else
    [.powerOn, .connect, .download, .disconnect, .shutdown] ++
      (if dOk then (if wasPlaying then [.stopSong] else []) ++ [.playNew] else [])

/-- `checkForNewAudio` of `part_000` lines 114-162 as an operation trace:
playback is stopped up front, the PSRAM arena is allocated after the network
connects (failure releases network and link), and the old file is resumed on
any failure when audio was playing. -/
def checkForNewAudioP0 (pOk cOk aOk dOk wasPlaying : Bool) : List CycleEv :=
  (if wasPlaying then [.stopSong] else []) ++
    (if !pOk then [.powerOn, .shutdown] ++ (if wasPlaying then [.playOld] else [])
     else if !cOk then
       [.powerOn, .connect, .shutdown] ++ (if wasPlaying then [.playOld] else [])
     else if !aOk then
       [.powerOn, .connect, .alloc, .disconnect, .shutdown] ++
         (if wasPlaying then [.playOld] else [])
     else
       [.powerOn, .connect, .alloc, .download, .freeBuf, .disconnect, .shutdown] ++
         (if dOk then [.playNew] else if wasPlaying then [.playOld] else []))

/-- Events that talk to the modem link. -/
def isLinkEv : CycleEv → Bool
  | .powerOn => true
  | .connect => true
  | .download => true
  | .disconnect => true
  | .shutdown => true
  | _ => false

/-- Test vector: a chunk that begins with the canonical AT contamination line
`"\r\n+HTTPREAD: 24\r\n"` followed by 83 clean `'A'` bytes (length 100). -/
def atTokenChunk : List Nat :=
  [13, 10, 43, 72, 84, 84, 80, 82, 69, 65, 68, 58, 32, 50, 52, 13, 10] ++
    List.replicate 83 65

/-- Test vector: a 300-byte chunk with the contamination pattern
`"\r+HTTP"` at offset 150, strictly in the interior. -/
def interiorChunk : List Nat :=
  List.replicate 150 65 ++ [13, 43, 72, 84, 84, 80] ++ List.replicate 144 65

/-- A stream of clean full chunks (all bytes `'A'`) delivering exactly `r`
payload bytes to `moh.cpp`'s loop: full `CHUNK_SIZE` chunks followed by one
final partial chunk. -/
def mkClean (r : Nat) : List MohChunk :=
  if _h : r = 0 then []
  else if _h1 : 1024 ≤ r then
    ⟨List.replicate 1024 65, true⟩ :: mkClean (r - 1024)
  else [⟨List.replicate r 65, true⟩]
termination_by r
decreasing_by omega

/-- An honest modem declares exactly the requested
`min(MODEM_READ_SIZE, contentLength - totalDownloaded)` bytes for every
chunk (a `0` header timeout is also allowed, since it only breaks the
loop). -/
def honestLens (cl : Nat) : Nat → List P0Chunk → Bool
  | _, [] => true
  | td, ch :: rest =>
    ch.len == 0 ||
      (ch.len == min MODEM_READ_SIZE (cl - td) && honestLens cl (td + ch.len) rest)

/-- The canonical honest chunk stream delivering `r` remaining bytes to
`part_000`'s loop with no stream mismatches and a working SD card. -/
def honestStream (r : Nat) : List P0Chunk :=
  if _h : r = 0 then []
  else ⟨min 1024 r, false, true⟩ :: honestStream (r - min 1024 r)
termination_by r
decreasing_by omega

/-- C1: `moh.cpp`'s `downloadAudioFile` evaluated at the failing input: a
declared size of 2048 with a single short clean 100-byte chunk read.  The
loop breaks on `bytesRead < CHUNK_SIZE` and the function returns `true`
with `totalRead = 100`, so a truncated stream is reported as success,
contradicting the claim's success predicate `bytes_received == bytes_total`. -/
theorem C1_short_read_reports_success :
    (downloadAudioFileMoh ⟨true, true, 200, 2048, false, true,
        [⟨List.replicate 100 65, true⟩]⟩).success = true ∧
    (downloadAudioFileMoh ⟨true, true, 200, 2048, false, true,
        [⟨List.replicate 100 65, true⟩]⟩).total = 100 := by
  decide

/-- C9: on every exit path of a refresh cycle — power-on failure,
network-connect failure, allocation failure (`part_000`), download failure
or success — the last link-touching operation of the cycle trace is the
modem shutdown, in both variants. -/
theorem C9_shutdown_on_every_exit :
    ∀ p c d w p2 c2 a2 d2 w2 : Bool,
      ((checkForNewAudioMoh p c d w).filter isLinkEv).getLast? = some .shutdown ∧
      ((checkForNewAudioP0 p2 c2 a2 d2 w2).filter isLinkEv).getLast? = some .shutdown := by
  decide

/-- C6 counterexample: `moh.cpp` accepts a 200 response with declared size
0 — the claim requires a terminal failure for a non-positive declared size,
but the function reports success (with zero chunk reads). -/
theorem C6_zero_size_accepted :
    (downloadAudioFileMoh ⟨true, true, 200, 0, true, true, []⟩).success = true ∧
    (downloadAudioFileMoh ⟨true, true, 200, 0, true, true, []⟩).reads = 0 := by
  decide

/-- C6 (amended): a non-200 status is a terminal failure with zero chunk
reads in both variants, and `part_000` also rejects a non-positive declared
size the same way; `moh.cpp` checks only the status. -/
theorem C6_header_rejection :
    (∀ env : P0Env, env.status ≠ 200 ∨ env.contentLength ≤ 0 →
      (downloadAudioFileP0 env).success = false ∧ (downloadAudioFileP0 env).reads = 0) ∧
    (∀ env : MohEnv, env.httpCode ≠ 200 →
      (downloadAudioFileMoh env).success = false ∧ (downloadAudioFileMoh env).reads = 0) := by
  constructor
  · intro env h
    obtain ⟨i, u, a, hd, st, cln, old, fo, chs⟩ := env
    cases i <;> cases u <;> cases a <;> cases hd <;>
      simp_all [downloadAudioFileP0]
  · intro env h
    obtain ⟨b, u, code, ts, old, fo, chs⟩ := env
    cases b <;> cases u <;> simp_all [downloadAudioFileMoh]

/-- C6 witness: the amended theorem applied at a 404 response (`part_000`)
and a 500 response (`moh.cpp`). -/
theorem C6_header_rejection_witness :
    ((downloadAudioFileP0 ⟨true, true, true, true, 404, 100, false, true, []⟩).success = false ∧
      (downloadAudioFileP0 ⟨true, true, true, true, 404, 100, false, true, []⟩).reads = 0) ∧
    ((downloadAudioFileMoh ⟨true, true, 500, 7, false, true, []⟩).success = false ∧
      (downloadAudioFileMoh ⟨true, true, 500, 7, false, true, []⟩).reads = 0) :=
  ⟨C6_header_rejection.1 ⟨true, true, true, true, 404, 100, false, true, []⟩ (by decide),
   C6_header_rejection.2 ⟨true, true, 500, 7, false, true, []⟩ (by decide)⟩

/-- C10 counterexample: `moh.cpp` removes the previously stored file after a
200 status even though the declared content length is 0 (not positive) —
here the subsequent `SD.open` fails, so the old file is lost and the
transfer fails with nothing written. -/
theorem C10_removed_despite_zero_size :
    (downloadAudioFileMoh ⟨true, true, 200, 0, true, false, []⟩).removed = true ∧
    (downloadAudioFileMoh ⟨true, true, 200, 0, true, false, []⟩).success = false ∧
    (downloadAudioFileMoh ⟨true, true, 200, 0, true, false, []⟩).writes = [] := by
  decide

/-- C10 (amended): failures before the transfer-start header leave the
stored file untouched in both variants; `part_000` removes the old file only
after a 200 status and a positive declared length, while `moh.cpp` removes
it after any 200 status regardless of the declared size. -/
theorem C10_old_file_preserved :
    (∀ env : MohEnv, env.beginOk = false ∨ env.setUrlOk = false ∨ env.httpCode ≠ 200 →
      (downloadAudioFileMoh env).removed = false ∧ (downloadAudioFileMoh env).writes = []) ∧
    (∀ env : P0Env, env.initOk = false ∨ env.urlOk = false ∨ env.actionOk = false ∨
        env.hdrOk = false ∨ env.status ≠ 200 ∨ env.contentLength ≤ 0 →
      (downloadAudioFileP0 env).removed = false ∧ (downloadAudioFileP0 env).flushes = []) ∧
    (∀ env : MohEnv, (downloadAudioFileMoh env).removed = true →
      env.beginOk = true ∧ env.setUrlOk = true ∧ env.httpCode = 200 ∧ env.oldExists = true) ∧
    (∀ env : P0Env, (downloadAudioFileP0 env).removed = true →
      env.initOk = true ∧ env.urlOk = true ∧ env.actionOk = true ∧ env.hdrOk = true ∧
        env.status = 200 ∧ 0 < env.contentLength ∧ env.oldExists = true) := by
  refine ⟨?_, ?_, ?_, ?_⟩
  · intro env h
    obtain ⟨b, u, code, ts, old, fo, chs⟩ := env
    cases b <;> cases u <;> cases fo <;> simp_all [downloadAudioFileMoh]
  · intro env h
    obtain ⟨i, u, a, hd, st, cln, old, fo, chs⟩ := env
    cases i <;> cases u <;> cases a <;> cases hd <;> cases fo <;>
      simp_all [downloadAudioFileP0]
  · intro env h
    obtain ⟨b, u, code, ts, old, fo, chs⟩ := env
    by_cases hc : code = 200 <;>
      cases b <;> cases u <;> cases old <;> cases fo <;>
        simp_all [downloadAudioFileMoh]
  · intro env h
    obtain ⟨i, u, a, hd, st, cln, old, fo, chs⟩ := env
    by_cases hst : st = 200 <;> by_cases hcl : cln ≤ 0 <;>
      cases i <;> cases u <;> cases a <;> cases hd <;> cases old <;> cases fo <;>
        simp_all [downloadAudioFileP0]
    all_goals first
    | omega
    | (split at h <;> simp_all)

/-- C10 witness: the amended theorem applied at concrete inputs — a failed
`https_begin` on `moh.cpp`, a failed `+HTTPINIT` and a rejected 503 header
on `part_000`, a completed `moh.cpp` removal, and a completed `part_000`
removal. -/
theorem C10_old_file_preserved_witness :
    ((downloadAudioFileMoh ⟨false, true, 200, 9, true, true, []⟩).removed = false ∧
      (downloadAudioFileMoh ⟨false, true, 200, 9, true, true, []⟩).writes = []) ∧
    ((downloadAudioFileP0 ⟨false, true, true, true, 200, 9, true, true, []⟩).removed = false ∧
      (downloadAudioFileP0 ⟨false, true, true, true, 200, 9, true, true, []⟩).flushes = []) ∧
    ((downloadAudioFileP0 ⟨true, true, true, true, 503, 9, true, true, []⟩).removed = false ∧
      (downloadAudioFileP0 ⟨true, true, true, true, 503, 9, true, true, []⟩).flushes = []) ∧
    ((⟨true, true, 200, 9, true, true, []⟩ : MohEnv).beginOk = true ∧
      (⟨true, true, 200, 9, true, true, []⟩ : MohEnv).setUrlOk = true ∧
      (⟨true, true, 200, 9, true, true, []⟩ : MohEnv).httpCode = 200 ∧
      (⟨true, true, 200, 9, true, true, []⟩ : MohEnv).oldExists = true) ∧
    ((⟨true, true, true, true, 200, 9, true, true, []⟩ : P0Env).initOk = true ∧
      (⟨true, true, true, true, 200, 9, true, true, []⟩ : P0Env).urlOk = true ∧
      (⟨true, true, true, true, 200, 9, true, true, []⟩ : P0Env).actionOk = true ∧
      (⟨true, true, true, true, 200, 9, true, true, []⟩ : P0Env).hdrOk = true ∧
      (⟨true, true, true, true, 200, 9, true, true, []⟩ : P0Env).status = 200 ∧
      0 < (⟨true, true, true, true, 200, 9, true, true, []⟩ : P0Env).contentLength ∧
      (⟨true, true, true, true, 200, 9, true, true, []⟩ : P0Env).oldExists = true) :=
  ⟨C10_old_file_preserved.1 ⟨false, true, 200, 9, true, true, []⟩ (by decide),
   C10_old_file_preserved.2.1 ⟨false, true, true, true, 200, 9, true, true, []⟩
     (Or.inl rfl),
   C10_old_file_preserved.2.1 ⟨true, true, true, true, 503, 9, true, true, []⟩
     (by decide),
   C10_old_file_preserved.2.2.1 ⟨true, true, 200, 9, true, true, []⟩ (by decide),
   C10_old_file_preserved.2.2.2 ⟨true, true, true, true, 200, 9, true, true, []⟩ (by decide)⟩

/-- C7 counterexample: with a perfectly responsive modem, a missing OK to
the `+IPR=921600` baud-change command makes `powerOnModem` return `false`
(abort), while the same modem with an acknowledged command succeeds — so
failure of the baud-change command is fatal, not non-fatal as claimed. -/
theorem C7_ipr_failure_fatal :
    powerOnModemMoh (fun _ => true) false = (false, 115200) ∧
    powerOnModemMoh (fun _ => true) true = (true, 921600) ∧
    powerOnModemP0 (fun _ => true) false = (false, 115200) := by
  decide

/-- C7 (amended): in `moh.cpp`, failure of the baud-raise *verification* is
non-fatal — after an acknowledged `+IPR` command, seven failed probes at the
new rate fall back to 115200 baud and `powerOnModem` still returns `true` —
whereas a missing OK to the `+IPR` command itself aborts with `false` in
both variants. -/
theorem C7_baud_verification_nonfatal :
    (∀ (t : Nat → Bool) (k : Nat), mohReadyPhase t = some k → probeAT t k 7 = none →
      powerOnModemMoh t true = (true, 115200)) ∧
    (∀ t : Nat → Bool, (powerOnModemMoh t false).1 = false) ∧
    (∀ t : Nat → Bool, (powerOnModemP0 t false).1 = false) := by
  refine ⟨?_, ?_, ?_⟩
  · intro t k h1 h2
    simp [powerOnModemMoh, h1, h2]
  · intro t
    unfold powerOnModemMoh
    cases mohReadyPhase t <;> simp
  · intro t
    unfold powerOnModemP0
    cases p0ReadyPhase t <;> simp

/-- C7 witness: the amended theorem applied to a modem that answers the
first two probes and then goes silent at the new baud rate. -/
theorem C7_baud_verification_nonfatal_witness :
    powerOnModemMoh (fun n => decide (n < 2)) true = (true, 115200) ∧
    (powerOnModemMoh (fun _ => false) false).1 = false ∧
    (powerOnModemP0 (fun _ => false) false).1 = false :=
  ⟨C7_baud_verification_nonfatal.1 (fun n => decide (n < 2)) 2 (by decide) (by decide),
   C7_baud_verification_nonfatal.2.1 (fun _ => false),
   C7_baud_verification_nonfatal.2.2 (fun _ => false)⟩

/-- C3 counterexample: the `part_000` loop trusts the modem-declared chunk
length.  Declaring 1024 bytes against a 10-byte transfer drives
`totalDownloaded` to 1024 > 10, violating `bytes_received <= bytes_total`;
declaring 2097153 bytes makes the single `readBytes` call write the span
`[0, 2097153)` into the 2097152-byte arena with no bounds check. -/
theorem C3_invariants_violated :
    (p0Loop 10 [⟨1024, false, true⟩] 0 0).total = 1024 ∧ ¬(1024 ≤ 10) ∧
    (p0Loop 4194304 [⟨2097153, false, true⟩] 0 0).writes = [(0, 2097153)] ∧
    LARGE_BUFFER_SIZE < 0 + 2097153 := by
  decide

/-- C4 counterexample: a short SD write during the *final* flush
(`totalDownloaded == contentLength`) is not fatal — the loop breaks and the
function still returns `true`, because the final comparison
`totalDownloaded == contentLength` already holds. -/
theorem C4_final_flush_short_write_not_fatal :
    (p0Loop 1024 [⟨1024, false, false⟩] 0 0).success = true ∧
    (p0Loop 1024 [⟨1024, false, false⟩] 0 0).flushes = [1024] ∧
    (p0Loop 1024 [⟨1024, false, false⟩] 0 0).finalOff = 1024 := by
  decide

/-- If the first `k` SIM polls return neither READY nor LOCKED and poll `k`
returns LOCKED within the budget, the SIM loop stops right there. -/
theorem simLoop_locked_run (f : Nat → SimSt) :
    ∀ fuel k k0 : Nat, k < fuel → f (k0 + k) = .locked →
      (∀ j, j < k → f (k0 + j) = .other) →
      simLoop f k0 fuel = (.lockedOut, k0 + k + 1) := by
  intro fuel
  induction fuel with
  | zero => intro k k0 h _ _; omega
  | succ m ih =>
    intro k k0 hk hl ho
    cases k with
    | zero =>
      have h0 : f k0 = .locked := by simpa using hl
      simp [simLoop, h0]
    | succ j =>
      have h0 : f k0 = .other := by simpa using ho 0 (Nat.succ_pos j)
      have hl2 : f (k0 + 1 + j) = .locked := by
        have e : k0 + 1 + j = k0 + (j + 1) := by omega
        rw [e]; exact hl
      have ho2 : ∀ i, i < j → f (k0 + 1 + i) = .other := by
        intro i hi
        have e : k0 + 1 + i = k0 + (i + 1) := by omega
        rw [e]; exact ho (i + 1) (by omega)
      have hrec := ih j (k0 + 1) (by omega) hl2 ho2
      simp [simLoop, h0, hrec]
      omega

/-- If the first `k` registration polls return a retryable status and poll
`k` returns DENIED within the budget, the registration loop stops there. -/
theorem regLoop_denied_run (g : Nat → RegSt) :
    ∀ fuel k k0 : Nat, k < fuel → g (k0 + k) = .denied →
      (∀ j, j < k → g (k0 + j) = .other) →
      regLoop g k0 fuel = (.deniedOut, k0 + k + 1) := by
  intro fuel
  induction fuel with
  | zero => intro k k0 h _ _; omega
  | succ m ih =>
    intro k k0 hk hl ho
    cases k with
    | zero =>
      have h0 : g k0 = .denied := by simpa using hl
      simp [regLoop, h0]
    | succ j =>
      have h0 : g k0 = .other := by simpa using ho 0 (Nat.succ_pos j)
      have hl2 : g (k0 + 1 + j) = .denied := by
        have e : k0 + 1 + j = k0 + (j + 1) := by omega
        rw [e]; exact hl
      have ho2 : ∀ i, i < j → g (k0 + 1 + i) = .other := by
        intro i hi
        have e : k0 + 1 + i = k0 + (i + 1) := by omega
        rw [e]; exact ho (i + 1) (by omega)
      have hrec := ih j (k0 + 1) (by omega) hl2 ho2
      simp [regLoop, h0, hrec]
      omega

/-- A HOME or ROAMING result at poll `k` (after retryable results) makes the
registration loop succeed there. -/
theorem regLoop_good_run (g : Nat → RegSt) :
    ∀ fuel k k0 : Nat, k < fuel → (g (k0 + k) = .home ∨ g (k0 + k) = .roaming) →
      (∀ j, j < k → g (k0 + j) = .other) →
      regLoop g k0 fuel = (.ok, k0 + k + 1) := by
  intro fuel
  induction fuel with
  | zero => intro k k0 h _ _; omega
  | succ m ih =>
    intro k k0 hk hl ho
    cases k with
    | zero =>
      have h0 : g k0 = .home ∨ g k0 = .roaming := by simpa using hl
      rcases h0 with h0 | h0 <;> simp [regLoop, h0]
    | succ j =>
      have h0 : g k0 = .other := by simpa using ho 0 (Nat.succ_pos j)
      have hl2 : g (k0 + 1 + j) = .home ∨ g (k0 + 1 + j) = .roaming := by
        have e : k0 + 1 + j = k0 + (j + 1) := by omega
        rw [e]; exact hl
      have ho2 : ∀ i, i < j → g (k0 + 1 + i) = .other := by
        intro i hi
        have e : k0 + 1 + i = k0 + (i + 1) := by omega
        rw [e]; exact ho (i + 1) (by omega)
      have hrec := ih j (k0 + 1) (by omega) hl2 ho2
      simp [regLoop, h0, hrec]
      omega

/-- C8: a LOCKED SIM result terminates `connectNetwork` immediately (the
poll that observes it is the last one — no retry-budget exhaustion); a
DENIED registration result does the same; HOME and ROAMING registration
results both exit the registration poll successfully. -/
theorem C8_locked_denied_terminal :
    (∀ (f : Nat → SimSt) (g : Nat → RegSt) (h : Nat → Bool) (ip : String) (k : Nat),
      k < 30 → f k = .locked → (∀ j, j < k → f j = .other) →
      simLoop f 0 30 = (.lockedOut, k + 1) ∧ connectNetworkMoh f g h ip = false) ∧
    (∀ (f : Nat → SimSt) (g : Nat → RegSt) (h : Nat → Bool) (ip : String) (k : Nat),
      k < 60 → g k = .denied → (∀ j, j < k → g j = .other) →
      regLoop g 0 60 = (.deniedOut, k + 1) ∧ connectNetworkMoh f g h ip = false) ∧
    (∀ (g : Nat → RegSt) (k : Nat),
      k < 60 → (g k = .home ∨ g k = .roaming) → (∀ j, j < k → g j = .other) →
      regLoop g 0 60 = (.ok, k + 1)) := by
  refine ⟨?_, ?_, ?_⟩
  · intro f g h ip k hk hl ho
    have hs : simLoop f 0 30 = (.lockedOut, k + 1) := by
      have := simLoop_locked_run f 30 k 0 hk (by simpa using hl) (by simpa using ho)
      simpa using this
    exact ⟨hs, by simp [connectNetworkMoh, hs]⟩
  · intro f g h ip k hk hl ho
    have hr : regLoop g 0 60 = (.deniedOut, k + 1) := by
      have := regLoop_denied_run g 60 k 0 hk (by simpa using hl) (by simpa using ho)
      simpa using this
    refine ⟨hr, ?_⟩
    rcases hs : simLoop f 0 30 with ⟨o, n⟩
    cases o <;> simp [connectNetworkMoh, hs, hr]
  · intro g k hk hl ho
    have := regLoop_good_run g 60 k 0 hk (by simpa using hl) (by simpa using ho)
    simpa using this

/-- C8 witness: the theorem applied to a SIM that reports LOCKED at poll 2,
a registration that reports DENIED at poll 3, and registrations that report
HOME at poll 0 and ROAMING at poll 1. -/
theorem C8_locked_denied_terminal_witness :
    (simLoop (fun n => if n = 2 then .locked else .other) 0 30 = (.lockedOut, 3) ∧
      connectNetworkMoh (fun n => if n = 2 then .locked else .other)
        (fun _ => .home) (fun _ => true) "10.0.0.1" = false) ∧
    (regLoop (fun n => if n = 3 then .denied else .other) 0 60 = (.deniedOut, 4) ∧
      connectNetworkMoh (fun _ => .ready) (fun n => if n = 3 then .denied else .other)
        (fun _ => true) "10.0.0.1" = false) ∧
    regLoop (fun _ => .home) 0 60 = (.ok, 1) ∧
    regLoop (fun n => if n = 1 then .roaming else .other) 0 60 = (.ok, 2) :=
  ⟨C8_locked_denied_terminal.1 (fun n => if n = 2 then .locked else .other)
      (fun _ => .home) (fun _ => true) "10.0.0.1" 2 (by omega) (by decide)
      (by intro j hj; interval_cases j <;> decide),
   C8_locked_denied_terminal.2.1 (fun _ => .ready)
      (fun n => if n = 3 then .denied else .other) (fun _ => true) "10.0.0.1" 3
      (by omega) (by decide) (by intro j hj; interval_cases j <;> decide),
   C8_locked_denied_terminal.2.2 (fun _ => .home) 0 (by omega) (Or.inl (by decide))
      (by intro j hj; omega),
   C8_locked_denied_terminal.2.2 (fun n => if n = 1 then .roaming else .other) 1
      (by omega) (Or.inr (by decide)) (by intro j hj; interval_cases j; decide)⟩

/-- The backward CR/LF skip never moves forward. -/
theorem mohSkipCRLFBack_le (d : List Nat) : ∀ e, mohSkipCRLFBack d e ≤ e := by
  intro e
  induction e with
  | zero => simp [mohSkipCRLFBack]
  | succ m ih =>
    rw [mohSkipCRLFBack]
    split
    · omega
    · omega

/-- A hit of the trailing scan lies inside the chunk. -/
theorem mohTailIdx_lt (d : List Nat) (i : Nat) (h : mohTailIdx d = some i) :
    i < d.length := by
  have hm := List.mem_of_find?_eq_some h
  rw [List.mem_reverse, List.mem_range'_1] at hm
  omega

/-- `cleanEnd` never exceeds the number of bytes read. -/
theorem mohCleanEnd_le (d : List Nat) : mohCleanEnd d ≤ d.length := by
  unfold mohCleanEnd
  cases h : mohTailIdx d with
  | none => exact le_refl _
  | some i =>
    dsimp only
    have hi := mohTailIdx_lt d i h
    have hs := mohSkipCRLFBack_le d (i - 1)
    omega

/-- C2: any chunk carrying the CR/LF-`"+HTTP"` pattern in the interior
window `[cleanStart + 10, cleanEnd - 10)` makes the download loop return
`false` without writing any part of that chunk and without advancing
`totalRead`. -/
theorem C2_interior_contamination_aborts :
    ∀ (ch : MohChunk) (rest : List MohChunk) (ts tr i : Nat),
      tr < ts →
      mohCleanStart ch.data + 10 ≤ i →
      i + 10 < mohCleanEnd ch.data →
      mohContamAt ch.data i = true →
      (mohLoop ts (ch :: rest) tr).success = false ∧
      (mohLoop ts (ch :: rest) tr).writes = [] ∧
      (mohLoop ts (ch :: rest) tr).total = tr := by
  intro ch rest ts tr i htr hs he hc
  have hint : mohInterior ch.data (mohCleanStart ch.data) (mohCleanEnd ch.data) = true := by
    unfold mohInterior
    rw [List.any_eq_true]
    refine ⟨i, ?_, hc⟩
    rw [List.mem_range'_1]
    omega
  have hproc : (mohProcess ch.data).ok = false := by
    unfold mohProcess
    simp [hint]
  have hlen : ch.data.length ≠ 0 := by
    have := mohCleanEnd_le ch.data
    omega
  rw [mohLoop]
  simp [htr, hlen, hproc]

set_option maxRecDepth 4000 in
/-- C2 witness: the theorem applied to a 300-byte chunk with the pattern at
offset 150 and a transfer that already read 7 of 500 bytes. -/
theorem C2_interior_contamination_aborts_witness :
    (mohLoop 500 [⟨interiorChunk, true⟩] 7).success = false ∧
    (mohLoop 500 [⟨interiorChunk, true⟩] 7).writes = [] ∧
    (mohLoop 500 [⟨interiorChunk, true⟩] 7).total = 7 :=
  C2_interior_contamination_aborts ⟨interiorChunk, true⟩ [] 500 7 150 (by omega)
    (by decide) (by decide) (by decide)

/-- Indexing into a replicated list of `'A'` bytes. -/
theorem getD_replicate65 : ∀ n i : Nat,
    (List.replicate n (65 : Nat)).getD i 0 = if i < n then 65 else 0 := by
  intro n
  induction n with
  | zero => intro i; simp
  | succ m ih =>
    intro i
    cases i with
    | zero => simp [List.replicate]
    | succ j =>
      rw [List.replicate_succ, List.getD_cons_succ, ih j]
      by_cases h : j < m <;> simp [h, Nat.succ_lt_succ_iff]

/-- A clean all-`'A'` chunk triggers no leading-edge scan hit. -/
theorem mohLeadIdx_replicate (n : Nat) : mohLeadIdx (List.replicate n 65) = none := by
  unfold mohLeadIdx
  rw [List.find?_eq_none]
  intro i _
  simp only [getD_replicate65, isCRLF]
  split <;> split <;> decide

/-- A clean all-`'A'` chunk triggers no trailing-edge scan hit. -/
theorem mohTailIdx_replicate (n : Nat) : mohTailIdx (List.replicate n 65) = none := by
  unfold mohTailIdx
  rw [List.find?_eq_none]
  intro i _
  simp only [getD_replicate65, isCRLF]
  split <;> split <;> decide

/-- A clean all-`'A'` chunk is not trimmed at the front. -/
theorem mohCleanStart_replicate (n : Nat) : mohCleanStart (List.replicate n 65) = 0 := by
  unfold mohCleanStart
  rw [mohLeadIdx_replicate]

/-- A clean all-`'A'` chunk is not trimmed at the back. -/
theorem mohCleanEnd_replicate (n : Nat) : mohCleanEnd (List.replicate n 65) = n := by
  unfold mohCleanEnd
  rw [mohTailIdx_replicate]
  exact List.length_replicate n 65

/-- A clean all-`'A'` chunk carries no interior contamination. -/
theorem mohInterior_replicate (n s e : Nat) :
    mohInterior (List.replicate n 65) s e = false := by
  unfold mohInterior
  rw [List.any_eq_false]
  intro i _
  simp only [mohContamAt, getD_replicate65, isCRLF]
  split <;> split <;> simp

/-- A nonempty clean all-`'A'` chunk is kept whole. -/
theorem mohProcess_replicate (n : Nat) (h : 0 < n) :
    mohProcess (List.replicate n 65) = ⟨true, 0, n⟩ := by
  unfold mohProcess
  simp [mohCleanStart_replicate, mohCleanEnd_replicate, mohInterior_replicate, h]

/-- Step shape of `moh.cpp`'s loop when the transfer is still incomplete and
the chunk is kept, written, and was a full read (the loop continues). -/
theorem mohLoop_cons_full (ts tr : Nat) (ch : MohChunk) (rest : List MohChunk)
    (htr : tr < ts) (hne : ch.data.length ≠ 0)
    (hok : (mohProcess ch.data).ok = true) (hsd : ch.sdOk = true)
    (hfull : ¬ch.data.length < CHUNK_SIZE) :
    mohLoop ts (ch :: rest) tr =
      ⟨(mohLoop ts rest (tr + ((mohProcess ch.data).e - (mohProcess ch.data).s))).success,
        (mohLoop ts rest (tr + ((mohProcess ch.data).e - (mohProcess ch.data).s))).total,
        ((ch.data.drop (mohProcess ch.data).s).take
            ((mohProcess ch.data).e - (mohProcess ch.data).s)) ::
          (mohLoop ts rest (tr + ((mohProcess ch.data).e - (mohProcess ch.data).s))).writes,
        (mohLoop ts rest (tr + ((mohProcess ch.data).e - (mohProcess ch.data).s))).reads + 1⟩ := by
  rw [mohLoop]
  simp [htr, hne, hok, hsd, hfull]

/-- Step shape of `moh.cpp`'s loop when the chunk is kept and written but was
a short read: the loop breaks and the function returns `true`. -/
theorem mohLoop_cons_break (ts tr : Nat) (ch : MohChunk) (rest : List MohChunk)
    (htr : tr < ts) (hne : ch.data.length ≠ 0)
    (hok : (mohProcess ch.data).ok = true) (hsd : ch.sdOk = true)
    (hlt : ch.data.length < CHUNK_SIZE) :
    mohLoop ts (ch :: rest) tr =
      ⟨true, tr + ((mohProcess ch.data).e - (mohProcess ch.data).s),
        [(ch.data.drop (mohProcess ch.data).s).take
            ((mohProcess ch.data).e - (mohProcess ch.data).s)], 1⟩ := by
  rw [mohLoop]
  simp [htr, hne, hok, hsd, hlt]

/-- Feeding `moh.cpp`'s loop the clean stream `mkClean r` from `totalRead = tr`
with `tr + r = ts` completes the transfer and reports success. -/
theorem mkClean_run : ∀ r ts tr : Nat, tr + r = ts →
    (mohLoop ts (mkClean r) tr).success = true ∧
    (mohLoop ts (mkClean r) tr).total = ts := by
  intro r
  induction r using Nat.strong_induction_on with
  | _ r ih =>
    intro ts tr htr
    by_cases h0 : r = 0
    · subst h0
      rw [mkClean, dif_pos rfl, mohLoop]
      simp [show ¬(tr < ts) by omega]
      omega
    · by_cases h1 : 1024 ≤ r
      · rw [mkClean, dif_neg h0, dif_pos h1]
        have hproc := mohProcess_replicate 1024 (by omega)
        obtain ⟨ihs, iht⟩ := ih (r - 1024) (by omega) ts (tr + 1024) (by omega)
        rw [mohLoop_cons_full ts tr ⟨List.replicate 1024 65, true⟩ (mkClean (r - 1024))
            (by omega)
            (show (List.replicate 1024 (65 : Nat)).length ≠ 0 by
              rw [List.length_replicate]; omega)
            (by rw [hproc]) rfl
            (show ¬(List.replicate 1024 (65 : Nat)).length < CHUNK_SIZE by
              rw [List.length_replicate]; simp [CHUNK_SIZE])]
        rw [hproc]
        constructor
        · simpa using ihs
        · simpa using iht
      · rw [mkClean, dif_neg h0, dif_neg h1]
        have hproc := mohProcess_replicate r (by omega)
        rw [mohLoop_cons_break ts tr ⟨List.replicate r 65, true⟩ []
            (by omega)
            (show (List.replicate r (65 : Nat)).length ≠ 0 by
              rw [List.length_replicate]; omega)
            (by rw [hproc]) rfl
            (show (List.replicate r (65 : Nat)).length < CHUNK_SIZE by
              rw [List.length_replicate]; simp [CHUNK_SIZE]; omega)]
        rw [hproc]
        simp
        omega

/-- C5 counterexample: a chunk whose leading edge is the contamination line
`"\r\n+HTTPREAD: 24\r\n"`.  The leading scan fires at the `'\n'` of the
initial CR/LF pair and trims only those 2 bytes, so the written payload
still begins with the `"+HTTP"` token bytes, `totalRead` counts the 15
remaining token bytes as payload, and the transfer reports success — the
edge contamination is not actually removed. -/
theorem C5_leading_token_retained :
    mohCleanStart atTokenChunk = 2 ∧
    (mohLoop 98 [⟨atTokenChunk, true⟩] 0).success = true ∧
    (mohLoop 98 [⟨atTokenChunk, true⟩] 0).writes = [atTokenChunk.drop 2] ∧
    (atTokenChunk.drop 2).take 5 = [43, 72, 84, 84, 80] ∧
    (mohLoop 98 [⟨atTokenChunk, true⟩] 0).total = 98 := by
  decide

/-- C5 (amended): a chunk the edge scans trim (to the window
`[cleanStart, cleanEnd)`), with no interior hit in the trimmed window and a
nonempty retained slice, is written as exactly that slice; `totalRead`
advances by exactly `cleanEnd - cleanStart` (the retained byte count, which
can still include token text when the leading match begins at a newline),
and the transfer still completes successfully when subsequent clean chunks
supply the remaining declared total. -/
theorem C5_edge_trim_transfer_completes :
    ∀ (d : List Nat) (ts tr : Nat),
      mohInterior d (mohCleanStart d) (mohCleanEnd d) = false →
      mohCleanStart d < mohCleanEnd d →
      d.length = CHUNK_SIZE →
      tr + (mohCleanEnd d - mohCleanStart d) ≤ ts →
      ∃ rest : List MohChunk,
        (mohLoop ts (⟨d, true⟩ :: rest) tr).success = true ∧
        (mohLoop ts (⟨d, true⟩ :: rest) tr).total = ts ∧
        (mohLoop ts (⟨d, true⟩ :: rest) tr).writes.head? =
          some ((d.drop (mohCleanStart d)).take (mohCleanEnd d - mohCleanStart d)) := by
  intro d ts tr hint hse hlen hts
  refine ⟨mkClean (ts - (tr + (mohCleanEnd d - mohCleanStart d))), ?_⟩
  have hproc : mohProcess d = ⟨true, mohCleanStart d, mohCleanEnd d⟩ := by
    unfold mohProcess
    simp [hint, hse]
  obtain ⟨rs, rt⟩ := mkClean_run (ts - (tr + (mohCleanEnd d - mohCleanStart d))) ts
    (tr + (mohCleanEnd d - mohCleanStart d)) (by omega)
  rw [mohLoop_cons_full ts tr ⟨d, true⟩ _
      (by omega)
      (by simp [hlen, CHUNK_SIZE])
      (by rw [hproc]) rfl
      (show ¬d.length < CHUNK_SIZE by omega)]
  rw [hproc]
  exact ⟨rs, rt, rfl⟩

set_option maxRecDepth 8192 in
/-- C5 witness: the amended theorem applied to an untrimmed clean full chunk
of a 2048-byte transfer (the window hypotheses hold with `cleanStart = 0`,
`cleanEnd = 1024`). -/
theorem C5_edge_trim_transfer_completes_witness :
    ∃ rest : List MohChunk,
      (mohLoop 2048 (⟨List.replicate 1024 65, true⟩ :: rest) 0).success = true ∧
      (mohLoop 2048 (⟨List.replicate 1024 65, true⟩ :: rest) 0).total = 2048 ∧
      (mohLoop 2048 (⟨List.replicate 1024 65, true⟩ :: rest) 0).writes.head? =
        some (((List.replicate 1024 65).drop (mohCleanStart (List.replicate 1024 65))).take
          (mohCleanEnd (List.replicate 1024 65) - mohCleanStart (List.replicate 1024 65))) :=
  C5_edge_trim_transfer_completes (List.replicate 1024 65) 2048 0
    (mohInterior_replicate 1024 _ _)
    (by rw [mohCleanStart_replicate, mohCleanEnd_replicate]; omega)
    (by rw [List.length_replicate]; rfl)
    (by rw [mohCleanStart_replicate, mohCleanEnd_replicate]; omega)

/-- `p0Loop` on an exhausted stream. -/
theorem p0Loop_nil (cl td off : Nat) :
    p0Loop cl [] td off = ⟨td == cl, td, [], [], [], off, 0⟩ := by
  rw [p0Loop]

/-- `p0Loop` when the loop condition `totalDownloaded < contentLength`
already fails. -/
theorem p0Loop_cons_exit (cl td off : Nat) (ch : P0Chunk) (rest : List P0Chunk)
    (h : ¬td < cl) :
    p0Loop cl (ch :: rest) td off = ⟨td == cl, td, [], [], [], off, 0⟩ := by
  rw [p0Loop, if_neg h]

/-- `p0Loop` on a header timeout (`len = 0`): break to the final comparison. -/
theorem p0Loop_cons_len0 (cl td off : Nat) (ch : P0Chunk) (rest : List P0Chunk)
    (htd : td < cl) (h : ch.len = 0) :
    p0Loop cl (ch :: rest) td off = ⟨td == cl, td, [], [], [], off, 1⟩ := by
  rw [p0Loop, if_pos htd, if_pos h]

/-- `p0Loop` on a stream mismatch: the arena write was attempted, then break. -/
theorem p0Loop_cons_short (cl td off : Nat) (ch : P0Chunk) (rest : List P0Chunk)
    (htd : td < cl) (hne : ¬ch.len = 0) (hs : ch.short = true) :
    p0Loop cl (ch :: rest) td off = ⟨td == cl, td, [], [(off, ch.len)], [], off, 1⟩ := by
  rw [p0Loop, if_pos htd, if_neg hne, if_pos hs]

/-- `p0Loop` on an accepted chunk that triggers a flush whose SD write
succeeds: the arena offset resets to zero for the rest of the run. -/
theorem p0Loop_cons_flush_ok (cl td off : Nat) (ch : P0Chunk) (rest : List P0Chunk)
    (htd : td < cl) (hne : ¬ch.len = 0) (hs : ch.short = false)
    (hfl : LARGE_BUFFER_SIZE ≤ off + ch.len ∨ td + ch.len = cl) (hsd : ch.sdOk = true) :
    p0Loop cl (ch :: rest) td off =
      ⟨(p0Loop cl rest (td + ch.len) 0).success, (p0Loop cl rest (td + ch.len) 0).total,
        (td + ch.len) :: (p0Loop cl rest (td + ch.len) 0).tds,
        (off, ch.len) :: (p0Loop cl rest (td + ch.len) 0).writes,
        (off + ch.len) :: (p0Loop cl rest (td + ch.len) 0).flushes,
        (p0Loop cl rest (td + ch.len) 0).finalOff,
        (p0Loop cl rest (td + ch.len) 0).reads + 1⟩ := by
  rw [p0Loop, if_pos htd, if_neg hne]
  have hcond : (decide (LARGE_BUFFER_SIZE ≤ off + ch.len) || (td + ch.len == cl)) = true := by
    rcases hfl with h | h
    · simp [h]
    · simp [h]
  simp only [hs, Bool.false_eq_true, if_false, hcond, if_true, hsd]

/-- `p0Loop` on an accepted chunk that triggers a flush whose SD write comes
up short: break to the final comparison with the offset not reset. -/
theorem p0Loop_cons_flush_fail (cl td off : Nat) (ch : P0Chunk) (rest : List P0Chunk)
    (htd : td < cl) (hne : ¬ch.len = 0) (hs : ch.short = false)
    (hfl : LARGE_BUFFER_SIZE ≤ off + ch.len ∨ td + ch.len = cl) (hsd : ch.sdOk = false) :
    p0Loop cl (ch :: rest) td off =
      ⟨td + ch.len == cl, td + ch.len, [td + ch.len], [(off, ch.len)],
        [off + ch.len], off + ch.len, 1⟩ := by
  rw [p0Loop, if_pos htd, if_neg hne]
  have hcond : (decide (LARGE_BUFFER_SIZE ≤ off + ch.len) || (td + ch.len == cl)) = true := by
    rcases hfl with h | h
    · simp [h]
    · simp [h]
  simp only [hs, Bool.false_eq_true, if_false, hcond, if_true, hsd]

/-- `p0Loop` on an accepted chunk that does not reach a flush point: the
offset keeps accumulating. -/
theorem p0Loop_cons_noflush (cl td off : Nat) (ch : P0Chunk) (rest : List P0Chunk)
    (htd : td < cl) (hne : ¬ch.len = 0) (hs : ch.short = false)
    (hfl : ¬(LARGE_BUFFER_SIZE ≤ off + ch.len ∨ td + ch.len = cl)) :
    p0Loop cl (ch :: rest) td off =
      ⟨(p0Loop cl rest (td + ch.len) (off + ch.len)).success,
        (p0Loop cl rest (td + ch.len) (off + ch.len)).total,
        (td + ch.len) :: (p0Loop cl rest (td + ch.len) (off + ch.len)).tds,
        (off, ch.len) :: (p0Loop cl rest (td + ch.len) (off + ch.len)).writes,
        (p0Loop cl rest (td + ch.len) (off + ch.len)).flushes,
        (p0Loop cl rest (td + ch.len) (off + ch.len)).finalOff,
        (p0Loop cl rest (td + ch.len) (off + ch.len)).reads + 1⟩ := by
  rw [p0Loop, if_pos htd, if_neg hne]
  push_neg at hfl
  have hcond : (decide (LARGE_BUFFER_SIZE ≤ off + ch.len) || (td + ch.len == cl)) = false := by
    simp [hfl.1, hfl.2]
  simp only [hs, Bool.false_eq_true, if_false, hcond]

/-- An arena offset that is a multiple of 1024 and strictly below the
capacity leaves room for a full 1024-byte chunk (the capacity is itself a
multiple of 1024). -/
theorem off_step_le (off : Nat) (h1 : off % 1024 = 0) (h2 : off < LARGE_BUFFER_SIZE) :
    off + 1024 ≤ LARGE_BUFFER_SIZE := by
  simp only [LARGE_BUFFER_SIZE] at h2 ⊢
  omega

/-- Run invariants of the `part_000` loop under an honest modem (every
declared chunk length equals the requested `min(1024, remaining)`): the
`totalDownloaded` trace is non-decreasing and bounded by `contentLength`,
every arena write stays within the capacity, every flush is at most the
capacity, bookkeeping between flush sizes, the final offset and the total
holds when every SD write succeeds, and a successful run downloaded exactly
`contentLength` with an empty staging buffer at exit. -/
theorem p0Loop_inv :
    ∀ (chunks : List P0Chunk) (cl td off : Nat),
      honestLens cl td chunks = true → td ≤ cl → off % 1024 = 0 →
      off < LARGE_BUFFER_SIZE →
      List.Chain' (· ≤ ·) (td :: (p0Loop cl chunks td off).tds) ∧
      (∀ t ∈ (p0Loop cl chunks td off).tds, t ≤ cl) ∧
      (∀ w ∈ (p0Loop cl chunks td off).writes, w.1 + w.2 ≤ LARGE_BUFFER_SIZE) ∧
      (∀ fl ∈ (p0Loop cl chunks td off).flushes, fl ≤ LARGE_BUFFER_SIZE) ∧
      td ≤ (p0Loop cl chunks td off).total ∧
      ((∀ c ∈ chunks, c.sdOk = true) →
        (p0Loop cl chunks td off).flushes.sum + (p0Loop cl chunks td off).finalOff + td =
          off + (p0Loop cl chunks td off).total) ∧
      ((p0Loop cl chunks td off).success = true → (p0Loop cl chunks td off).total = cl) ∧
      ((p0Loop cl chunks td off).success = true → (∀ c ∈ chunks, c.sdOk = true) →
        td < cl ∨ off = 0 → (p0Loop cl chunks td off).finalOff = 0) := by
  intro chunks
  induction chunks with
  | nil =>
    intro cl td off _ hle hmod hlt
    rw [p0Loop_nil]
    refine ⟨by simp, by simp, by simp, by simp, by simp, by simp, ?_, ?_⟩
    · intro h
      rw [beq_iff_eq] at h
      exact h
    · intro hsuc _ hdisj
      rw [beq_iff_eq] at hsuc
      rcases hdisj with h | h
      · omega
      · exact h
  | cons ch rest ih =>
    intro cl td off hhon hle hmod hlt
    by_cases htd : td < cl
    · by_cases hl0 : ch.len = 0
      · rw [p0Loop_cons_len0 cl td off ch rest htd hl0]
        refine ⟨by simp, by simp, by simp, by simp, by simp, by simp, ?_, ?_⟩
        · intro h
          rw [beq_iff_eq] at h
          exact h
        · intro hsuc _ _
          rw [beq_iff_eq] at hsuc
          omega
      · have hhon2 : ch.len = min 1024 (cl - td) ∧
            honestLens cl (td + ch.len) rest = true := by
          rw [honestLens, Bool.or_eq_true, Bool.and_eq_true, beq_iff_eq, beq_iff_eq] at hhon
          rcases hhon with h | h
          · exact absurd h hl0
          · exact h
        obtain ⟨hlen, hrest⟩ := hhon2
        have hchle : ch.len ≤ 1024 := by omega
        have hbound : off + ch.len ≤ LARGE_BUFFER_SIZE := by
          have := off_step_le off hmod hlt
          omega
        have htdle : td + ch.len ≤ cl := by omega
        cases hsh : ch.short with
        | true =>
          rw [p0Loop_cons_short cl td off ch rest htd hl0 hsh]
          refine ⟨by simp, by simp, ?_, by simp, by simp, by simp, ?_, ?_⟩
          · intro w hw
            rw [List.mem_singleton] at hw
            subst hw
            exact hbound
          · intro h
            rw [beq_iff_eq] at h
            exact h
          · intro hsuc _ _
            rw [beq_iff_eq] at hsuc
            omega
        | false =>
          by_cases hfl : LARGE_BUFFER_SIZE ≤ off + ch.len ∨ td + ch.len = cl
          · cases hsd : ch.sdOk with
            | false =>
              rw [p0Loop_cons_flush_fail cl td off ch rest htd hl0 hsh hfl hsd]
              have hallf : ¬∀ c ∈ ch :: rest, c.sdOk = true := by
                intro hall
                have h := hall ch (List.mem_cons_self ch rest)
                rw [hsd] at h
                simp at h
              refine ⟨?_, ?_, ?_, ?_, by dsimp only; omega, ?_, ?_, ?_⟩
              · simp only [List.chain'_cons, List.chain'_singleton, and_true]
                omega
              · intro t ht
                rw [List.mem_singleton] at ht
                omega
              · intro w hw
                rw [List.mem_singleton] at hw
                subst hw
                exact hbound
              · intro fl hfl2
                rw [List.mem_singleton] at hfl2
                omega
              · intro hall
                exact absurd hall hallf
              · intro h
                rw [beq_iff_eq] at h
                exact h
              · intro _ hall _
                exact absurd hall hallf
            | true =>
              rw [p0Loop_cons_flush_ok cl td off ch rest htd hl0 hsh hfl hsd]
              obtain ⟨ic, itd, iw, ifl, itot, isum, isucc, ifin⟩ :=
                ih cl (td + ch.len) 0 hrest htdle (by omega) (by simp [LARGE_BUFFER_SIZE])
              refine ⟨?_, ?_, ?_, ?_, ?_, ?_, ?_, ?_⟩
              · rw [List.chain'_cons]
                exact ⟨by omega, ic⟩
              · intro t ht
                rcases List.mem_cons.mp ht with rfl | ht
                · exact htdle
                · exact itd t ht
              · intro w hw
                rcases List.mem_cons.mp hw with rfl | hw
                · exact hbound
                · exact iw w hw
              · intro fl hfl2
                rcases List.mem_cons.mp hfl2 with rfl | hfl2
                · exact hbound
                · exact ifl fl hfl2
              · dsimp only
                omega
              · intro hall
                have hall2 : ∀ c ∈ rest, c.sdOk = true :=
                  fun c hc => hall c (List.mem_cons_of_mem ch hc)
                have := isum hall2
                dsimp only
                rw [List.sum_cons]
                omega
              · exact isucc
              · intro hsuc hall _
                have hall2 : ∀ c ∈ rest, c.sdOk = true :=
                  fun c hc => hall c (List.mem_cons_of_mem ch hc)
                exact ifin hsuc hall2 (Or.inr rfl)
          · have hfl2 := hfl
            push_neg at hfl2
            have hlen1024 : ch.len = 1024 := by
              have hne := hfl2.2
              omega
            have hoffmod : (off + ch.len) % 1024 = 0 := by
              rw [hlen1024]
              omega
            have hofflt : off + ch.len < LARGE_BUFFER_SIZE := by
              have := hfl2.1
              omega
            rw [p0Loop_cons_noflush cl td off ch rest htd hl0 hsh hfl]
            obtain ⟨ic, itd, iw, ifl, itot, isum, isucc, ifin⟩ :=
              ih cl (td + ch.len) (off + ch.len) hrest htdle hoffmod hofflt
            refine ⟨?_, ?_, ?_, ?_, ?_, ?_, ?_, ?_⟩
            · rw [List.chain'_cons]
              exact ⟨by omega, ic⟩
            · intro t ht
              rcases List.mem_cons.mp ht with rfl | ht
              · exact htdle
              · exact itd t ht
            · intro w hw
              rcases List.mem_cons.mp hw with rfl | hw
              · exact hbound
              · exact iw w hw
            · exact ifl
            · dsimp only
              omega
            · intro hall
              have hall2 : ∀ c ∈ rest, c.sdOk = true :=
                fun c hc => hall c (List.mem_cons_of_mem ch hc)
              have := isum hall2
              dsimp only
              omega
            · exact isucc
            · intro hsuc hall _
              have hall2 : ∀ c ∈ rest, c.sdOk = true :=
                fun c hc => hall c (List.mem_cons_of_mem ch hc)
              exact ifin hsuc hall2 (Or.inl (by omega))
    · rw [p0Loop_cons_exit cl td off ch rest htd]
      refine ⟨by simp, by simp, by simp, by simp, by simp, by simp, ?_, ?_⟩
      · intro h
        rw [beq_iff_eq] at h
        exact h
      · intro hsuc _ hdisj
        rw [beq_iff_eq] at hsuc
        rcases hdisj with h | h
        · omega
        · exact h

/-- C3 (amended): over any full run of the `part_000` loop from the initial
state with an honest modem (each declared length equals the requested
`min(1024, remaining)`), `totalDownloaded` is monotonically non-decreasing
and never exceeds `contentLength`, and every arena write span stays within
the `LARGE_BUFFER_SIZE` capacity — the offset never escapes
`[0, capacity]`.  (The code itself performs no bounds check: the
counterexample shows both invariants break for dishonest declared
lengths.) -/
theorem C3_honest_run_invariants :
    ∀ (chunks : List P0Chunk) (cl : Nat),
      honestLens cl 0 chunks = true →
      List.Chain' (· ≤ ·) (0 :: (p0Loop cl chunks 0 0).tds) ∧
      (∀ t ∈ (p0Loop cl chunks 0 0).tds, t ≤ cl) ∧
      (∀ w ∈ (p0Loop cl chunks 0 0).writes, w.1 + w.2 ≤ LARGE_BUFFER_SIZE) := by
  intro chunks cl h
  obtain ⟨a, b, c, -, -, -, -, -⟩ :=
    p0Loop_inv chunks cl 0 0 h (by omega) (by omega) (by simp [LARGE_BUFFER_SIZE])
  exact ⟨a, b, c⟩

/-- C3 witness: the amended theorem applied to an honest two-chunk run of a
2000-byte transfer. -/
theorem C3_honest_run_invariants_witness :
    List.Chain' (· ≤ ·)
      (0 :: (p0Loop 2000 [⟨1024, false, true⟩, ⟨976, false, true⟩] 0 0).tds) ∧
    (∀ t ∈ (p0Loop 2000 [⟨1024, false, true⟩, ⟨976, false, true⟩] 0 0).tds, t ≤ 2000) ∧
    (∀ w ∈ (p0Loop 2000 [⟨1024, false, true⟩, ⟨976, false, true⟩] 0 0).writes,
      w.1 + w.2 ≤ LARGE_BUFFER_SIZE) :=
  C3_honest_run_invariants [⟨1024, false, true⟩, ⟨976, false, true⟩] 2000 (by decide)

/-- The canonical honest stream satisfies the honesty predicate. -/
theorem honestStream_honest : ∀ r cl td : Nat, td + r = cl →
    honestLens cl td (honestStream r) = true := by
  intro r
  induction r using Nat.strong_induction_on with
  | _ r ih =>
    intro cl td h
    by_cases h0 : r = 0
    · subst h0
      rw [honestStream, dif_pos rfl, honestLens]
    · rw [honestStream, dif_neg h0, honestLens]
      rw [Bool.or_eq_true, Bool.and_eq_true, beq_iff_eq, beq_iff_eq]
      refine Or.inr ⟨?_, ?_⟩
      · unfold MODEM_READ_SIZE
        dsimp only
        omega
      · dsimp only
        exact ih (r - min 1024 r) (by omega) cl (td + min 1024 r) (by omega)

/-- The canonical honest stream has a working SD card throughout. -/
theorem honestStream_sdOk : ∀ r : Nat, ∀ c ∈ honestStream r, c.sdOk = true := by
  intro r
  induction r using Nat.strong_induction_on with
  | _ r ih =>
    intro c hc
    by_cases h0 : r = 0
    · subst h0
      rw [honestStream, dif_pos rfl] at hc
      simp at hc
    · rw [honestStream, dif_neg h0] at hc
      rcases List.mem_cons.mp hc with rfl | hc
      · rfl
      · exact ih (r - min 1024 r) (by omega) c hc

/-- Feeding `part_000`'s loop the canonical honest stream for the whole
remaining size completes the transfer successfully. -/
theorem honestStream_success : ∀ r cl td off : Nat, td + r = cl →
    off % 1024 = 0 → off < LARGE_BUFFER_SIZE →
    (p0Loop cl (honestStream r) td off).success = true := by
  intro r
  induction r using Nat.strong_induction_on with
  | _ r ih =>
    intro cl td off h hmod hlt
    by_cases h0 : r = 0
    · subst h0
      rw [honestStream, dif_pos rfl, p0Loop_nil]
      simp only [beq_iff_eq]
      omega
    · rw [honestStream, dif_neg h0]
      have htd : td < cl := by omega
      have hl0 : ¬(⟨min 1024 r, false, true⟩ : P0Chunk).len = 0 := by
        dsimp only
        omega
      by_cases hfl : LARGE_BUFFER_SIZE ≤ off + (⟨min 1024 r, false, true⟩ : P0Chunk).len ∨
          td + (⟨min 1024 r, false, true⟩ : P0Chunk).len = cl
      · rw [p0Loop_cons_flush_ok cl td off _ _ htd hl0 rfl hfl rfl]
        dsimp only
        exact ih (r - min 1024 r) (by omega) cl (td + min 1024 r) 0 (by omega) (by omega)
          (by simp [LARGE_BUFFER_SIZE])
      · rw [p0Loop_cons_noflush cl td off _ _ htd hl0 rfl hfl]
        dsimp only
        have hfl2 := hfl
        push_neg at hfl2
        have hlen1024 : min 1024 r = 1024 := by
          have := hfl2.2
          dsimp only at this
          omega
        exact ih (r - min 1024 r) (by omega) cl (td + min 1024 r) (off + min 1024 r)
          (by omega) (by omega) (by dsimp only at hfl2; omega)

/-- C4 (amended): in the `part_000` loop, a flush happens exactly when the
new offset reaches `LARGE_BUFFER_SIZE` or the new total equals
`contentLength` (the flush-complement parts): a failed SD write during a
flush with `totalDownloaded` still short of `contentLength` makes the run
return `false`; a successful flush records the staged size and continues
with the offset reset to zero; no flush is recorded when neither condition
holds; and an honest, fully-written, successful transfer of
`5242880 = 2.5 * LARGE_BUFFER_SIZE` bytes flushes at least twice. -/
theorem C4_flush_semantics :
    (∀ (cl td off : Nat) (ch : P0Chunk) (rest : List P0Chunk),
      td < cl → ¬ch.len = 0 → ch.short = false → ch.sdOk = false →
      (LARGE_BUFFER_SIZE ≤ off + ch.len ∨ td + ch.len = cl) → td + ch.len ≠ cl →
      (p0Loop cl (ch :: rest) td off).success = false) ∧
    (∀ (cl td off : Nat) (ch : P0Chunk) (rest : List P0Chunk),
      td < cl → ¬ch.len = 0 → ch.short = false → ch.sdOk = true →
      (LARGE_BUFFER_SIZE ≤ off + ch.len ∨ td + ch.len = cl) →
      (p0Loop cl (ch :: rest) td off).flushes =
        (off + ch.len) :: (p0Loop cl rest (td + ch.len) 0).flushes ∧
      (p0Loop cl (ch :: rest) td off).success =
        (p0Loop cl rest (td + ch.len) 0).success) ∧
    (∀ (cl td off : Nat) (ch : P0Chunk) (rest : List P0Chunk),
      td < cl → ¬ch.len = 0 → ch.short = false →
      ¬(LARGE_BUFFER_SIZE ≤ off + ch.len ∨ td + ch.len = cl) →
      (p0Loop cl (ch :: rest) td off).flushes =
        (p0Loop cl rest (td + ch.len) (off + ch.len)).flushes) ∧
    (∀ chunks : List P0Chunk,
      honestLens 5242880 0 chunks = true → (∀ c ∈ chunks, c.sdOk = true) →
      (p0Loop 5242880 chunks 0 0).success = true →
      2 ≤ (p0Loop 5242880 chunks 0 0).flushes.length) := by
  refine ⟨?_, ?_, ?_, ?_⟩
  · intro cl td off ch rest htd hl0 hsh hsd hfl hne
    rw [p0Loop_cons_flush_fail cl td off ch rest htd hl0 hsh hfl hsd]
    dsimp only
    rw [beq_eq_false_iff_ne]
    exact hne
  · intro cl td off ch rest htd hl0 hsh hsd hfl
    rw [p0Loop_cons_flush_ok cl td off ch rest htd hl0 hsh hfl hsd]
    exact ⟨rfl, rfl⟩
  · intro cl td off ch rest htd hl0 hsh hfl
    rw [p0Loop_cons_noflush cl td off ch rest htd hl0 hsh hfl]
  · intro chunks hhon hall hsucc
    obtain ⟨-, -, -, ifl, -, isum, isucc, ifin⟩ :=
      p0Loop_inv chunks 5242880 0 0 hhon (by omega) (by omega)
        (by simp [LARGE_BUFFER_SIZE])
    have htot := isucc hsucc
    have hfin := ifin hsucc hall (Or.inl (by omega))
    have hsum := isum hall
    rw [htot, hfin] at hsum
    by_contra hlt2
    push_neg at hlt2
    have hb := List.sum_le_card_nsmul (p0Loop 5242880 chunks 0 0).flushes
      LARGE_BUFFER_SIZE ifl
    rw [smul_eq_mul] at hb
    have hLBS : LARGE_BUFFER_SIZE = 2097152 := rfl
    rw [hLBS] at hb
    omega

/-- C4 witness: the amended theorem applied at concrete inputs — a failed
intermediate flush, a successful final flush, a non-flushing chunk, and the
canonical honest 5242880-byte run. -/
theorem C4_flush_semantics_witness :
    (p0Loop 5 [⟨1, false, false⟩] 0 LARGE_BUFFER_SIZE).success = false ∧
    ((p0Loop 1024 [⟨1024, false, true⟩] 0 0).flushes =
        1024 :: (p0Loop 1024 [] 1024 0).flushes ∧
      (p0Loop 1024 [⟨1024, false, true⟩] 0 0).success =
        (p0Loop 1024 [] 1024 0).success) ∧
    (p0Loop 4096 [⟨1024, false, true⟩] 0 0).flushes =
      (p0Loop 4096 [] 1024 1024).flushes ∧
    2 ≤ (p0Loop 5242880 (honestStream 5242880) 0 0).flushes.length := by
  refine ⟨?_, ?_, ?_, ?_⟩
  · exact C4_flush_semantics.1 5 0 LARGE_BUFFER_SIZE ⟨1, false, false⟩ []
      (by omega) (by decide) rfl rfl (Or.inl (by decide)) (by decide)
  · exact C4_flush_semantics.2.1 1024 0 0 ⟨1024, false, true⟩ []
      (by omega) (by decide) rfl rfl (Or.inr rfl)
  · exact C4_flush_semantics.2.2.1 4096 0 0 ⟨1024, false, true⟩ []
      (by omega) (by decide) rfl (by decide)
  · exact C4_flush_semantics.2.2.2 (honestStream 5242880)
      (honestStream_honest 5242880 5242880 0 rfl)
      (honestStream_sdOk 5242880)
      (honestStream_success 5242880 5242880 0 0 rfl (by omega)
        (by simp [LARGE_BUFFER_SIZE]))
